import Mathlib

/-
Verification of the AMD (answering-machine-detection) decision engine of the
`attack-capital` repository against its natural-language specification.

The TypeScript sources are shallowly embedded:
* JS strings are modelled by Lean `String` viewed as its character list;
  `replace(/\D/g, "")` is a character filter, `startsWith`/`includes` are
  list prefix / contiguous-sublist tests, `toLowerCase` maps `Char.toLower`.
* JS numbers used by the code (confidence values, per-minute rates) are
  modelled as exact rationals `ℚ`.
* JS objects used as metadata bags are modelled as association lists with a
  first-match lookup; object spread `\x7b...a, ...b\x7d` is modelled by giving
  the entries of `b` lookup precedence over those of `a`.
* Network collaborators (Twilio call placement, the Jambonz REST API, the
  Python ML service, the Gemini LLM) are modelled by explicit outcome values
  passed in an environment record; the embedded functions are the exact
  branch structure of the source on those outcomes.
* Database rows (`calls`) become a `CallRecord` structure; one webhook
  delivery becomes one pure state-update function on it.  Timestamp fields
  (`updatedAt`) are not modelled.
-/

namespace AmdCore

/-- Closed verdict enum, from the Prisma `amd_result` enum. -/
inductive AmdResult where
  | HUMAN | MACHINE | VOICEMAIL | UNDECIDED | TIMEOUT | ERROR
deriving DecidableEq

/-- Closed lifecycle enum, from the Prisma `call_status` enum. -/
inductive CallStatus where
  | INITIATED | RINGING | ANSWERED | COMPLETED | FAILED | CANCELLED
deriving DecidableEq

/-- Closed strategy enum, from the Prisma `amd_strategy` enum. -/
inductive AmdStrategy where
  | TWILIO_NATIVE | JAMBONZ_SIP | HUGGINGFACE_MODEL | GEMINI_FLASH
deriving DecidableEq

/-- The Prisma enum value serialized into JSON metadata is its name. -/
def AmdStrategy.name : AmdStrategy → String
  | .TWILIO_NATIVE => "TWILIO_NATIVE"
  | .JAMBONZ_SIP => "JAMBONZ_SIP"
  | .HUGGINGFACE_MODEL => "HUGGINGFACE_MODEL"
  | .GEMINI_FLASH => "GEMINI_FLASH"

/-- JSON-ish values stored in the metadata bag.  The nested object shapes that
actually occur in the source (`amdConfig`, the parsed Gemini response, the raw
ML prediction) get dedicated constructors. -/
inductive MetaVal where
  | str (s : String)
  | boolVal (b : Bool)
  | num (q : ℚ)
  | undef
  | amdConfigVal (thresholdWordCount decisionTimeoutMs : ℕ)
  | parsedVal (classification : Option String) (confidence : ℚ)
  | predictionVal (label : String) (confidence : ℚ)
deriving DecidableEq

/-- A JS object used as a metadata bag: association list, first match wins. -/
abbrev Metadata := List (String × MetaVal)

/-- Key lookup on a metadata bag. -/
def Metadata.get (m : Metadata) (k : String) : Option MetaVal :=
  (m.find? (fun p => p.1 == k)).map (·.2)

/-- JS object spread `\x7b...a, ...b\x7d`: entries of `b` take precedence over
entries of `a`.  Realized by putting `b` first for the first-match lookup. -/
def Metadata.spread (a b : Metadata) : Metadata := b ++ a

/-- The detection-result value type (`AmdDetectionResult` in
src/src/lib/amdStrategies.ts). -/
structure AmdDetectionResult where
  result : AmdResult
  confidence : ℚ
  metadata : Metadata
deriving DecidableEq

/-- The `calls` row as the reconciliation layer reads and writes it. -/
structure CallRecord where
  status : CallStatus
  amdResult : Option AmdResult
  confidence : Option ℚ
  metadata : Metadata
  duration : Option ℕ
  cost : Option ℚ
  amdStrategy : AmdStrategy
deriving DecidableEq

/-! ## Phone number normalizer (src/src/lib/phoneUtils.ts) -/

/-- Embeds `formatPhoneNumber`.  `input.replace(/\D/g, "")` keeps exactly the
decimal digits of the input, in order; `startsWith` is a list-prefix test.
The TS parameter `defaultCountryCode` defaults to "+1"; callers here pass it
explicitly. -/
def formatPhoneNumber (input : String) (defaultCountryCode : String) : String :=
  let digits : List Char := input.toList.filter Char.isDigit
  if digits.isEmpty then ""
  else if digits.length = 11 ∧ ['1'].isPrefixOf digits then "+" ++ String.mk digits
  else if digits.length = 12 ∧ ['9', '1'].isPrefixOf digits then "+" ++ String.mk digits
  else if digits.length = 10 then
    if ['6'].isPrefixOf digits ∨ ['7'].isPrefixOf digits ∨ ['8'].isPrefixOf digits
        ∨ ['9'].isPrefixOf digits then
      "+91" ++ String.mk digits
    else
      "+1" ++ String.mk digits
  else if digits.length > 12 then "+" ++ String.mk digits
  else defaultCountryCode ++ String.mk digits

/-- The regex `^\+\d\x7b10,15\x7d$` of `isValidPhoneNumber` as a Boolean test. -/
def matchesCanonical (s : String) : Bool :=
  match s.toList with
  | c :: rest =>
      c == '+' && rest.all Char.isDigit && decide (10 ≤ rest.length) && decide (rest.length ≤ 15)
  | [] => false

/-- Embeds `isValidPhoneNumber`: format with the default country code, then
test the canonical-form regex. -/
def isValidPhoneNumber (phoneNumber : String) : Bool :=
  matchesCanonical (formatPhoneNumber phoneNumber "+1")

/-! ## Native strategy (TwilioNativeDetector, src/src/lib/amdStrategies.ts) -/

/-- JS truthiness of an optional string field: absent (`undefined`) and the
empty string are falsy. -/
def truthy : Option String → Bool
  | none => false
  | some s => s != ""

/-- Outcome of the external `client.calls.create` placement request made by
`TwilioNativeDetector.processCall`: success with a call SID and initial
status, a thrown error with Twilio code 21219 (trial-account restriction,
carrying `error.message`), or any other thrown error (carrying its message,
with "Unknown error" substituted by the source for non-`Error` throws). -/
inductive TwilioCallOutcome where
  | ok (sid status : String)
  | errTrialAccount (message : String)
  | err (message : String)
deriving DecidableEq

/-- Embeds `TwilioNativeDetector.processCall`.  The phone number and call id
feed only the external placement request, so the returned value is a function
of the placement outcome alone. -/
def twilioProcessCall (o : TwilioCallOutcome) : AmdDetectionResult :=
  match o with
  | .ok sid status =>
      ⟨.UNDECIDED, 0, [("twilioCallSid", .str sid), ("status", .str status)]⟩
  | .errTrialAccount message =>
      ⟨.ERROR, 0,
        [("error", .str "Trial account limitation: Can only call verified numbers. Please verify the phone number in your Twilio console or upgrade your account."),
         ("twilioError", .str message)]⟩
  | .err message => ⟨.ERROR, 0, [("error", .str message)]⟩

/-- The fields of a Twilio status callback that the webhook code reads.
String fields are `Option String` (`none` = absent).  `CallDuration`, when
present, is a decimal digit string and is modelled by its numeric value (so
`some 0` is the present string "0", which is truthy in JS). -/
structure TwilioWebhookPayload where
  CallSid : Option String
  callStatusField : Option String
  AnsweringMachineDetectionStatus : Option String
  AnsweredBy : Option String
  CallDuration : Option ℕ
deriving DecidableEq

/-- Embeds `TwilioNativeDetector.handleWebhook`: switch on the answering-party
classification `AnsweringMachineDetectionStatus || AnsweredBy`. -/
def twilioNativeHandleWebhook (p : TwilioWebhookPayload) : Option AmdDetectionResult :=
  let amdStatusOpt : Option String :=
    if truthy p.AnsweringMachineDetectionStatus then p.AnsweringMachineDetectionStatus
    else p.AnsweredBy
  if truthy amdStatusOpt then
    let amdStatus := amdStatusOpt.getD ""
    let source : String :=
      if truthy p.AnsweredBy then "AnsweredBy" else "AnsweringMachineDetectionStatus"
    if amdStatus = "human" then
      some ⟨.HUMAN, 85/100, [("twilioAmd", .str amdStatus), ("source", .str source)]⟩
    else if amdStatus = "machine_start" ∨ amdStatus = "machine_end_beep"
        ∨ amdStatus = "machine_end_silence" ∨ amdStatus = "machine" then
      some ⟨.MACHINE, 8/10, [("twilioAmd", .str amdStatus), ("source", .str source)]⟩
    else if amdStatus = "fax" then
      some ⟨.MACHINE, 9/10, [("twilioAmd", .str amdStatus), ("source", .str source)]⟩
    else
      some ⟨.UNDECIDED, 3/10, [("twilioAmd", .str amdStatus), ("source", .str source)]⟩
  else
    none

/-! ## SIP-enhanced strategy (JambonzSipDetector) -/

/-- Outcome of one Jambonz placement attempt (one phone-number format):
the POST succeeded with a SID, was rejected with an error body, or threw. -/
inductive JambonzAttempt where
  | ok (sid : String)
  | rejected (errorText : String)
  | exn
deriving DecidableEq

/-- Environment of `JambonzSipDetector.processCall`: whether the three
JAMBONZ_* variables are configured, the health-probe result (a probe
exception counts as unhealthy), the outcome of each format attempt by index,
and the outcome of the Twilio placement the fallback detector would make. -/
structure JambonzEnv where
  configured : Bool
  healthy : Bool
  attempt : ℕ → JambonzAttempt
  twilioOutcome : TwilioCallOutcome

/-- Embeds `JambonzSipDetector.fallbackToTwilio`: delegate to the native
detector, then annotate its metadata. -/
def jambonzFallback (tw : TwilioCallOutcome) (reason : String) : AmdDetectionResult :=
  let r := twilioProcessCall tw
  { r with
    metadata := r.metadata.spread
      [("fallbackReason", .str reason),
       ("originalProvider", .str "jambonz"),
       ("actualProvider", .str "twilio"),
       ("fallbackUsed", .boolVal true)] }

/-- `phoneNumber.replace(/[^\d+]/g, '')`: keep digits and '+'. -/
def cleanNumber (s : String) : String :=
  String.mk (s.toList.filter (fun c => c.isDigit || c == '+'))

/-- JS `replace('+', '')`: remove the first occurrence of '+'. -/
def removeFirstPlus : List Char → List Char
  | [] => []
  | c :: cs => if c = '+' then cs else c :: removeFirstPlus cs

/-- The ordered list of phone-number format variants tried by
`JambonzSipDetector.processCall`. -/
def toNumberFormats (phoneNumber : String) : List String :=
  let cleanTo := cleanNumber phoneNumber
  [cleanTo,
   String.mk (removeFirstPlus cleanTo.toList),
   if ['+', '9', '1'].isPrefixOf cleanTo.toList then String.mk (cleanTo.toList.drop 3)
   else if ['+', '1'].isPrefixOf cleanTo.toList then String.mk (cleanTo.toList.drop 2)
   else String.mk (removeFirstPlus cleanTo.toList)]

/-- The successful-placement result of the Jambonz path. -/
def jambonzSuccess (sid fmt : String) : AmdDetectionResult :=
  ⟨.UNDECIDED, 0,
    [("jambonzCallSid", .str sid),
     ("status", .str "initiated"),
     ("phoneFormat", .str fmt),
     ("provider", .str "jambonz"),
     ("sipRouting", .str "enhanced"),
     ("amdConfig", .amdConfigVal 5 10000)]⟩

/-- The format-attempt loop of `JambonzSipDetector.processCall`: first
success wins; a rejection of the last format falls back with the rejection
text; an exception skips to the next format; exhaustion falls back. -/
def jambonzTryFormats (tw : TwilioCallOutcome) (attempt : ℕ → JambonzAttempt) :
    List String → ℕ → AmdDetectionResult
  | [], _ => jambonzFallback tw "All Jambonz phone number formats failed"
  | f :: rest, i =>
      match attempt i with
      | .ok sid => jambonzSuccess sid f
      | .rejected errorText =>
          if rest.isEmpty then
            jambonzFallback tw ("Jambonz rejected all formats: " ++ errorText)
          else jambonzTryFormats tw attempt rest (i + 1)
      | .exn => jambonzTryFormats tw attempt rest (i + 1)

/-- Embeds `JambonzSipDetector.processCall`. -/
def jambonzProcessCall (env : JambonzEnv) (phoneNumber : String) (_callId : String) :
    AmdDetectionResult :=
  if !env.configured then jambonzFallback env.twilioOutcome "Jambonz not configured"
  else if !env.healthy then jambonzFallback env.twilioOutcome "Jambonz service unavailable"
  else jambonzTryFormats env.twilioOutcome env.attempt (toNumberFormats phoneNumber) 0

/-- The fields of a Jambonz webhook body the code reads.  The `amd_*` flags
are JS truthiness of the delivered values. -/
structure JambonzWebhookPayload where
  call_sid : Option String
  amd_human_detected : Bool
  amd_machine_detected : Bool
  amd_decision_timeout : Bool
  call_status : Option String
  call_duration : Option ℕ
deriving DecidableEq

/-- Embeds `JambonzSipDetector.handleWebhook`. -/
def jambonzHandleWebhook (p : JambonzWebhookPayload) : Option AmdDetectionResult :=
  if p.amd_human_detected then
    some ⟨.HUMAN, 9/10, [("jambonzAmd", .str "human_detected")]⟩
  else if p.amd_machine_detected then
    some ⟨.MACHINE, 85/100, [("jambonzAmd", .str "machine_detected")]⟩
  else if p.amd_decision_timeout then
    some ⟨.TIMEOUT, 1/2, [("jambonzAmd", .str "decision_timeout")]⟩
  else
    none

/-! ## Streaming-ML strategy (HuggingFaceDetector) -/

/-- Outcome of a direct `client.calls.create` made inside a strategy body
(HuggingFace / Gemini streaming placement): success with a SID, or a thrown
error caught by the strategy's outer catch. -/
inductive CallPlacement where
  | ok (sid : String)
  | thrown (message : String)
deriving DecidableEq

/-- Environment of `HuggingFaceDetector.processCall`: the Python ML service
health probe (a probe exception counts as unhealthy), the service URL, the
streaming placement outcome, and the placement outcome of the native fallback
detector. -/
structure HuggingFaceEnv where
  pythonHealthy : Bool
  pythonServiceUrl : String
  placement : CallPlacement
  twilioOutcome : TwilioCallOutcome

/-- Embeds `HuggingFaceDetector.processCall`. -/
def huggingFaceProcessCall (env : HuggingFaceEnv) (_phoneNumber _callId : String) :
    AmdDetectionResult :=
  if !env.pythonHealthy then
    let fallbackResult := twilioProcessCall env.twilioOutcome
    { fallbackResult with
      metadata := fallbackResult.metadata.spread
        [("strategy", .str "huggingface-fallback"),
         ("fallbackReason", .str "Python service unavailable"),
         ("originalStrategy", .str "huggingface")] }
  else
    match env.placement with
    | .ok sid =>
        ⟨.UNDECIDED, 0,
          [("twilioCallSid", .str sid),
           ("strategy", .str "huggingface"),
           ("pythonService", .str env.pythonServiceUrl),
           ("streamingEnabled", .boolVal true),
           ("model", .str "jakeBland/wav2vec-vm-finetune"),
           ("analysisMethod", .str "real-time-streaming-ml")]⟩
    | .thrown message =>
        let fallbackResult := twilioProcessCall env.twilioOutcome
        { fallbackResult with
          metadata := fallbackResult.metadata.spread
            [("strategy", .str "huggingface-error-fallback"),
             ("originalError", .str message),
             ("originalStrategy", .str "huggingface")] }

/-- Outcome of the `POST /predict` request to the Python ML service: a JSON
body with a label and confidence, a non-ok HTTP response with its status
text, or a thrown error with its message. -/
inductive PredictOutcome where
  | ok (label : String) (confidence : ℚ)
  | httpError (statusText : String)
  | exn (message : String)
deriving DecidableEq

/-- Embeds `HuggingFaceDetector.processAudioBuffer`: the audio-buffer
inference call of the streaming path. -/
def huggingFaceProcessAudioBuffer (o : PredictOutcome) : AmdDetectionResult :=
  match o with
  | .ok label confidence =>
      ⟨if label = "human" then .HUMAN else .MACHINE, confidence,
        [("model", .str "jakeBland/wav2vec-vm-finetune"),
         ("rawPrediction", .predictionVal label confidence)]⟩
  | .httpError statusText =>
      ⟨.ERROR, 0, [("error", .str ("Python service error: " ++ statusText))]⟩
  | .exn message => ⟨.ERROR, 0, [("error", .str message)]⟩

/-- Embeds `HuggingFaceDetector.handleWebhook`: pure delegation to the native
detector's webhook handler. -/
def huggingFaceHandleWebhook (p : TwilioWebhookPayload) : Option AmdDetectionResult :=
  twilioNativeHandleWebhook p

/-! ## LLM-transcript strategy (GeminiFlashDetector) -/

/-- Environment of `GeminiFlashDetector.processCall`: whether GEMINI_API_KEY
is configured (equivalently, `genAI` is initialized), the liveness-probe
result, the streaming placement outcome, and the native fallback detector's
placement outcome. -/
structure GeminiEnv where
  apiKeyConfigured : Bool
  geminiAvailable : Bool
  placement : CallPlacement
  twilioOutcome : TwilioCallOutcome

/-- Embeds `GeminiFlashDetector.processCall`. -/
def geminiProcessCall (env : GeminiEnv) (_phoneNumber _callId : String) :
    AmdDetectionResult :=
  if !env.apiKeyConfigured then
    let fallbackResult := twilioProcessCall env.twilioOutcome
    { fallbackResult with
      metadata := fallbackResult.metadata.spread
        [("strategy", .str "gemini-fallback"),
         ("fallbackReason", .str "Gemini API key not configured"),
         ("originalStrategy", .str "gemini"),
         ("note", .str "Get free API key from ai.google.dev")] }
  else if !env.geminiAvailable then
    let fallbackResult := twilioProcessCall env.twilioOutcome
    { fallbackResult with
      metadata := fallbackResult.metadata.spread
        [("strategy", .str "gemini-api-fallback"),
         ("fallbackReason", .str "Gemini API unavailable"),
         ("originalStrategy", .str "gemini")] }
  else
    match env.placement with
    | .ok sid =>
        ⟨.UNDECIDED, 0,
          [("twilioCallSid", .str sid),
           ("strategy", .str "gemini"),
           ("geminiModel", .str "gemini-1.5-flash"),
           ("streamingEnabled", .boolVal true),
           ("analysisMethod", .str "multimodal-streaming-llm"),
           ("costOptimized", .boolVal true)]⟩
    | .thrown message =>
        let fallbackResult := twilioProcessCall env.twilioOutcome
        { fallbackResult with
          metadata := fallbackResult.metadata.spread
            [("strategy", .str "gemini-error-fallback"),
             ("originalError", .str message),
             ("originalStrategy", .str "gemini")] }

/-- JS `text.toLowerCase()` on the character list. -/
def strToLower (s : String) : String := String.mk (s.toList.map Char.toLower)

/-- JS `s.includes(sub)`: contiguous-sublist search. -/
def listContainsSub (sub : List Char) : List Char → Bool
  | [] => sub.isEmpty
  | c :: rest => sub.isPrefixOf (c :: rest) || listContainsSub sub rest

/-- JS `s.includes(sub)` lifted to strings. -/
def strIncludes (s sub : String) : Bool := listContainsSub sub.toList s.toList

/-- Embeds `GeminiFlashDetector.parseFallbackResponse`: keyword scan of the
raw model response. -/
def parseFallbackResponse (text : String) : Option AmdDetectionResult :=
  let lowerText := strToLower text
  if strIncludes lowerText "human" then
    some ⟨.HUMAN, 7/10, [("fallbackParsing", .boolVal true), ("rawResponse", .str text)]⟩
  else if strIncludes lowerText "machine" || strIncludes lowerText "voicemail" then
    some ⟨.MACHINE, 7/10, [("fallbackParsing", .boolVal true), ("rawResponse", .str text)]⟩
  else
    none

/-- The fields `JSON.parse(text)` is projected to by `processAudioText`:
`parsed.classification` (possibly absent) and `parsed.confidence`. -/
structure ParsedGemini where
  classification : Option String
  confidence : ℚ
deriving DecidableEq

/-- Environment of `GeminiFlashDetector.processAudioText`: whether `genAI`
is initialized, the model's response to a generated prompt (`.error` models
a thrown `generateContent`; the prompt is abstracted by its variant flag and
the transcript embedded into it), and the abstract `JSON.parse` primitive
(`none` = throws on this text). -/
structure GeminiTextEnv where
  initialized : Bool
  generate : Bool → String → Except String String
  parseJSON : String → Option ParsedGemini

/-- JS `transcript.substring(0, 500) + "..."` when over 500 characters. -/
def truncateTranscript (t : String) : String :=
  if t.length > 500 then String.mk (t.toList.take 500) ++ "..." else t

/-- The response-handling tail of `GeminiFlashDetector.processAudioText`:
structured parse of the model response, keyword fallback, error result. -/
def geminiHandleResponse (env : GeminiTextEnv) (text optimizedTranscript : String)
    (audioQuality noiseLevel : Option String) (isNoisyAudio tokenOptimized : Bool) :
    AmdDetectionResult :=
  match env.parseJSON text with
  | some parsed =>
      let amdResult : AmdResult :=
        if parsed.classification = some "human" then .HUMAN
        else if parsed.classification = some "voicemail" then .VOICEMAIL
        else .MACHINE
      ⟨amdResult, parsed.confidence,
        [("geminiResponse", .parsedVal parsed.classification parsed.confidence),
         ("transcript", .str optimizedTranscript),
         ("audioQuality", audioQuality.elim .undef .str),
         ("noiseLevel", noiseLevel.elim .undef .str),
         ("promptType", .str (if isNoisyAudio then "fallback" else "standard")),
         ("tokenOptimized", .boolVal tokenOptimized)]⟩
  | none =>
      match parseFallbackResponse text with
      | some fallbackResult => fallbackResult
      | none =>
          ⟨.ERROR, 0,
            [("error", .str "Failed to parse Gemini response"),
             ("rawResponse", .str text),
             ("fallbackAttempted", .boolVal true)]⟩

/-- Embeds `GeminiFlashDetector.processAudioText`: prompt selection,
transcript truncation, then the response handling above. -/
def geminiProcessAudioText (env : GeminiTextEnv) (transcript : String)
    (audioQuality noiseLevel : Option String) : AmdDetectionResult :=
  if !env.initialized then
    ⟨.ERROR, 0, [("error", .str "Gemini API not initialized")]⟩
  else
    let isNoisyAudio := noiseLevel == some "high" || audioQuality == some "poor"
    let optimizedTranscript := truncateTranscript transcript
    match env.generate isNoisyAudio optimizedTranscript with
    | .error message => ⟨.ERROR, 0, [("error", .str message)]⟩
    | .ok text =>
        geminiHandleResponse env text optimizedTranscript audioQuality noiseLevel isNoisyAudio
          (decide (transcript.length > 500))

/-- Embeds `GeminiFlashDetector.handleWebhook`: pure delegation to the native
detector's webhook handler. -/
def geminiHandleWebhook (p : TwilioWebhookPayload) : Option AmdDetectionResult :=
  twilioNativeHandleWebhook p

/-! ## Event reconciliation: Twilio status webhook
(src/app/api/webhooks/twilio/status, unnamed part_006) -/

/-- Embeds `mapTwilioStatus` of the Twilio status route.  The switch default
returns `INITIATED`. -/
def mapTwilioStatus (status : String) : CallStatus :=
  if status = "queued" ∨ status = "initiated" then .INITIATED
  else if status = "ringing" then .RINGING
  else if status = "in-progress" then .ANSWERED
  else if status = "completed" then .COMPLETED
  else if status = "failed" ∨ status = "busy" ∨ status = "no-answer" then .FAILED
  else if status = "canceled" then .CANCELLED
  else .INITIATED

/-- One delivery of the Twilio status webhook applied to an existing call
record (the body of the route's POST handler after the record lookup).  An
absent `CallStatus` field hits the same switch default as an unmapped one. -/
def twilioApplyEvent (call : CallRecord) (p : TwilioWebhookPayload) : CallRecord :=
  let newStatus := mapTwilioStatus (p.callStatusField.getD "")
  let duration : Option ℕ := p.CallDuration
  let cost : Option ℚ :=
    match duration with
    | some d => if d ≠ 0 then some ((d : ℚ) / 60 * (85/10000)) else none
    | none => none
  if truthy p.AnsweringMachineDetectionStatus || truthy p.AnsweredBy then
    let amdPayload := { p with
      AnsweringMachineDetectionStatus :=
        if truthy p.AnsweringMachineDetectionStatus then p.AnsweringMachineDetectionStatus
        else p.AnsweredBy }
    match twilioNativeHandleWebhook amdPayload with
    | some result =>
        { call with
          status := newStatus
          amdResult := some result.result
          confidence := some result.confidence
          metadata := (call.metadata.spread result.metadata).spread
            [("originalAnsweredBy", p.AnsweredBy.elim .undef .str),
             ("originalStrategy", .str call.amdStrategy.name),
             ("actualProvider", .str "twilio"),
             ("fallbackUsed", .boolVal (call.amdStrategy ≠ .TWILIO_NATIVE))]
          duration := duration
          cost := cost }
    | none => { call with status := newStatus, duration := duration, cost := cost }
  else
    { call with status := newStatus, duration := duration, cost := cost }

/-! ## Event reconciliation: Jambonz webhook
(src/app/api/webhooks/jambonz, unnamed part_009; same status mapper in
src/app/api/amd-events) -/

/-- Embeds `mapJambonzStatus` (identical in the Jambonz webhook route and the
amd-events route).  The switch default returns the record's current status. -/
def mapJambonzStatus (status : String) (current : CallStatus) : CallStatus :=
  if status = "trying" ∨ status = "proceeding" then .INITIATED
  else if status = "ringing" then .RINGING
  else if status = "early" ∨ status = "in-progress" then .ANSWERED
  else if status = "completed" then .COMPLETED
  else if status = "failed" ∨ status = "busy" ∨ status = "no-answer" then .FAILED
  else if status = "canceled" then .CANCELLED
  else current

/-- The update step of the Jambonz webhook route, given the (possibly null)
result of the strategy's `handleWebhook` plus the status and duration fields
of the body: exactly lines 38-90 of the route after the record lookup. -/
def jambonzApplyResult (call : CallRecord) (result : Option AmdDetectionResult)
    (call_status : Option String) (call_duration : Option ℕ) : CallRecord :=
  let newStatus :=
    if truthy call_status then mapJambonzStatus (call_status.getD "") call.status
    else call.status
  let duration : Option ℕ := call_duration
  let cost : Option ℚ :=
    match duration with
    | some d => if d ≠ 0 then some ((d : ℚ) / 60 * (1/100)) else none
    | none => none
  let afterStatus := { call with status := newStatus }
  let afterResult :=
    match result with
    | some r =>
        { afterStatus with
          amdResult := some r.result
          confidence := some r.confidence
          metadata := afterStatus.metadata.spread r.metadata }
    | none => afterStatus
  let afterDuration :=
    match duration with
    | some d => { afterResult with duration := some d }
    | none => afterResult
  match cost with
  | some q => { afterDuration with cost := some q }
  | none => afterDuration

/-- One delivery of the Jambonz webhook applied to an existing call record:
resolve the event through the SIP strategy's `handleWebhook`, then apply. -/
def jambonzApplyEvent (call : CallRecord) (p : JambonzWebhookPayload) : CallRecord :=
  jambonzApplyResult call (jambonzHandleWebhook p) p.call_status p.call_duration

/-! ## Spec-side definitions (refinement targets, worded from the spec) -/

/-- Modelled from the spec wording of claim C4: the case analysis on the
digit string `d` of the input (11 digits starting "1" or 12 starting "91"
get "+"; exactly 10 get "+91" on a 6/7/8/9 lead else "+1"; more than 12 get
"+"; otherwise the configured default country code). -/
def specNormalize (d : List Char) (defaultCountryCode : String) : String :=
  if d = [] then ""
  else if (d.length = 11 ∧ d.head? = some '1') ∨ (d.length = 12 ∧ d.take 2 = ['9', '1']) then
    "+" ++ String.mk d
  else if d.length = 10 then
    if d.head? = some '6' ∨ d.head? = some '7' ∨ d.head? = some '8' ∨ d.head? = some '9' then
      "+91" ++ String.mk d
    else "+1" ++ String.mk d
  else if d.length > 12 then "+" ++ String.mk d
  else defaultCountryCode ++ String.mk d

/-- Worded from the spec of claim C4: the canonical form is '+' followed by
10 to 15 decimal digits. -/
def MatchesCanonicalSpec (f : String) : Prop :=
  ∃ rest : List Char, f.toList = '+' :: rest ∧ (∀ c ∈ rest, c.isDigit = true)
    ∧ 10 ≤ rest.length ∧ rest.length ≤ 15

/-- The amended verdict/confidence table of the native webhook mapping
(claim C6 amended): the machine variants recognized are exactly the four
literal strings handled by the switch. -/
def specAmdMapping (v : String) : AmdResult × ℚ :=
  if v = "human" then (.HUMAN, 85/100)
  else if v = "machine" ∨ v = "machine_start" ∨ v = "machine_end_beep"
      ∨ v = "machine_end_silence" then (.MACHINE, 8/10)
  else if v = "fax" then (.MACHINE, 9/10)
  else (.UNDECIDED, 3/10)

/-- The answering-party classification the native webhook handler switches
on: `AnsweringMachineDetectionStatus || AnsweredBy`. -/
def amdSignalValue (p : TwilioWebhookPayload) : Option String :=
  if truthy p.AnsweringMachineDetectionStatus then p.AnsweringMachineDetectionStatus
  else p.AnsweredBy

/-- The Twilio lifecycle vocabulary handled by `mapTwilioStatus`. -/
def twilioVocab : List String :=
  ["queued", "initiated", "ringing", "in-progress", "completed", "failed",
   "busy", "no-answer", "canceled"]

/-- The Jambonz lifecycle vocabulary handled by `mapJambonzStatus`. -/
def jambonzVocab : List String :=
  ["trying", "proceeding", "ringing", "early", "in-progress", "completed",
   "failed", "busy", "no-answer", "canceled"]

/-! ## Helper lemmas -/

theorem Metadata.get_spread (a b : Metadata) (k : String) :
    (a.spread b).get k = ((b.get k).or (a.get k)) := by
  unfold Metadata.get Metadata.spread
  rw [List.find?_append]
  cases b.find? (fun p => p.1 == k) <;> simp

theorem Metadata.get_spread_of_mem (a b : Metadata) (k : String) (v : MetaVal)
    (h : b.get k = some v) : (a.spread b).get k = some v := by
  rw [Metadata.get_spread, h]; rfl

theorem Metadata.get_spread_of_none (a b : Metadata) (k : String)
    (h : b.get k = none) : (a.spread b).get k = a.get k := by
  rw [Metadata.get_spread, h]; rfl

theorem Metadata.get_cons_self (k : String) (v : MetaVal) (m : Metadata) :
    Metadata.get ((k, v) :: m) k = some v := by
  simp [Metadata.get]

theorem Metadata.get_cons_ne (k k' : String) (v : MetaVal) (m : Metadata)
    (h : k' ≠ k) : Metadata.get ((k', v) :: m) k = Metadata.get m k := by
  simp [Metadata.get, List.find?_cons_of_neg, h]

theorem isPrefixOf_singleton_iff (c : Char) (l : List Char) :
    ([c].isPrefixOf l = true) ↔ l.head? = some c := by
  rw [List.isPrefixOf_iff_prefix]
  cases l with
  | nil => simp
  | cons x xs => simp [eq_comm]

theorem isPrefixOf_pair_iff (c₁ c₂ : Char) (l : List Char) :
    ([c₁, c₂].isPrefixOf l = true) ↔ l.take 2 = [c₁, c₂] := by
  rw [List.isPrefixOf_iff_prefix]
  match l with
  | [] => simp
  | [x] => simp
  | x :: y :: rest => simp [eq_comm]

theorem matchesCanonical_iff (f : String) :
    matchesCanonical f = true ↔ MatchesCanonicalSpec f := by
  unfold matchesCanonical MatchesCanonicalSpec
  rcases hf : f.toList with _ | ⟨c, rest⟩
  · simp
  · simp only [Bool.and_eq_true, beq_iff_eq, List.all_eq_true, decide_eq_true_eq,
      List.cons.injEq]
    constructor
    · rintro ⟨⟨⟨hc, hd⟩, h10⟩, h15⟩
      exact ⟨rest, ⟨hc, rfl⟩, hd, h10, h15⟩
    · rintro ⟨r, ⟨hc, hr⟩, hd, h10, h15⟩
      subst hr
      exact ⟨⟨⟨hc, hd⟩, h10⟩, h15⟩

theorem formatPhoneNumber_eq_spec (s dcc : String) :
    formatPhoneNumber s dcc = specNormalize (s.toList.filter Char.isDigit) dcc := by
  unfold formatPhoneNumber specNormalize
  simp only [List.isEmpty_iff, isPrefixOf_singleton_iff, isPrefixOf_pair_iff]
  split_ifs <;> first | rfl | tauto

theorem plus_mk (d : List Char) : "+" ++ String.mk d = String.mk ('+' :: d) := rfl

theorem filter_digits_plus_cons (d : List Char) (hdig : ∀ c ∈ d, c.isDigit = true) :
    List.filter Char.isDigit ('+' :: d) = d := by
  rw [List.filter_cons]
  simp only [show Char.isDigit '+' = false from rfl, Bool.false_eq_true, if_false]
  exact List.filter_eq_self.mpr hdig

/-- C4: `normalize` realizes exactly the claimed case analysis on the digit
string of the input, `isValid` is the canonical-form test on the normalized
number, and an input with no digits normalizes to the empty string, which is
invalid (totality of the Lean functions models absence of exceptions). -/
theorem c4_normalize_case_analysis : ∀ (s dcc : String),
    formatPhoneNumber s dcc = specNormalize (s.toList.filter Char.isDigit) dcc
    ∧ (isValidPhoneNumber s = true ↔ MatchesCanonicalSpec (formatPhoneNumber s "+1"))
    ∧ (s.toList.filter Char.isDigit = [] →
        formatPhoneNumber s dcc = "" ∧ isValidPhoneNumber s = false) := by
  intro s dcc
  refine ⟨formatPhoneNumber_eq_spec s dcc, ?_, ?_⟩
  · unfold isValidPhoneNumber
    exact matchesCanonical_iff _
  · intro h
    have h1 : formatPhoneNumber s dcc = "" := by
      rw [formatPhoneNumber_eq_spec, h]; rfl
    have h2 : formatPhoneNumber s "+1" = "" := by
      rw [formatPhoneNumber_eq_spec, h]; rfl
    refine ⟨h1, ?_⟩
    unfold isValidPhoneNumber
    rw [h2]
    rfl

/-- Witness for C4 at the digit-free input "abc". -/
theorem c4_witness :
    formatPhoneNumber "abc" "+1" = "" ∧ isValidPhoneNumber "abc" = false :=
  (c4_normalize_case_analysis "abc" "+1").2.2 (by decide)

/-- Counterexample to C5: "+2345678901" is a canonical `+<10 digits>` string,
yet normalizing it prefixes another country code. -/
theorem c5_counterexample :
    matchesCanonical "+2345678901" = true
    ∧ formatPhoneNumber "+2345678901" "+1" ≠ "+2345678901" := by
  constructor
  · decide
  · decide

/-- C5 (amended): the normalizer is unchanged exactly on the canonical forms
whose digit string has 13-15 digits, or 11 digits starting with '1', or 12
digits starting with "91"; the other canonical `+<10-15 digit>` forms are
re-prefixed (see the counterexample). -/
theorem c5_amended_idempotent_on_long_forms : ∀ (d : List Char) (dcc : String),
    (∀ c ∈ d, c.isDigit = true) →
    ((13 ≤ d.length ∧ d.length ≤ 15) ∨ (d.length = 11 ∧ d.head? = some '1')
      ∨ (d.length = 12 ∧ d.take 2 = ['9', '1'])) →
    formatPhoneNumber (String.mk ('+' :: d)) dcc = String.mk ('+' :: d) := by
  intro d dcc hdig hc
  have hfil : (String.mk ('+' :: d)).toList.filter Char.isDigit = d :=
    filter_digits_plus_cons d hdig
  rw [formatPhoneNumber_eq_spec, hfil]
  unfold specNormalize
  have hlen0 : d = [] → d.length = 0 := fun h => by rw [h]; rfl
  rcases hc with ⟨h13, _h15⟩ | ⟨h11, hhd⟩ | ⟨h12, htk⟩
  · split_ifs with h1 h2 h3 h4
    · exact absurd (hlen0 h1) (by omega)
    · exact plus_mk d
    · omega
    · omega
    · exact plus_mk d
    · omega
  · split_ifs with h1 h2 h3 h4
    · exact absurd (hlen0 h1) (by omega)
    · exact plus_mk d
    · omega
    · omega
    · exact absurd (Or.inl ⟨h11, hhd⟩) h2
    · exact absurd (Or.inl ⟨h11, hhd⟩) h2
  · split_ifs with h1 h2 h3 h4
    · exact absurd (hlen0 h1) (by omega)
    · exact plus_mk d
    · omega
    · omega
    · exact absurd (Or.inr ⟨h12, htk⟩) h2
    · exact absurd (Or.inr ⟨h12, htk⟩) h2

/-- Witness for the amended C5 at "+911234567890" (12 digits starting "91"). -/
theorem c5_amended_witness :
    formatPhoneNumber (String.mk ('+' :: ['9', '1', '1', '2', '3', '4', '5', '6', '7', '8', '9', '0']))
        "+1"
      = String.mk ('+' :: ['9', '1', '1', '2', '3', '4', '5', '6', '7', '8', '9', '0']) :=
  c5_amended_idempotent_on_long_forms
    ['9', '1', '1', '2', '3', '4', '5', '6', '7', '8', '9', '0'] "+1"
    (by decide) (by decide)

/-! ## Route projection lemmas -/

theorem twilioApplyEvent_status (call : CallRecord) (p : TwilioWebhookPayload) :
    (twilioApplyEvent call p).status = mapTwilioStatus (p.callStatusField.getD "") := by
  simp only [twilioApplyEvent]
  split
  · split <;> rfl
  · rfl

theorem twilioApplyEvent_duration (call : CallRecord) (p : TwilioWebhookPayload) :
    (twilioApplyEvent call p).duration = p.CallDuration := by
  simp only [twilioApplyEvent]
  split
  · split <;> (split <;> rfl)
  · split <;> rfl

theorem twilioApplyEvent_cost (call : CallRecord) (p : TwilioWebhookPayload) :
    (twilioApplyEvent call p).cost =
      match p.CallDuration with
      | some d => if d ≠ 0 then some ((d : ℚ) / 60 * (85/10000)) else none
      | none => none := by
  simp only [twilioApplyEvent]
  split
  · split <;> rfl
  · rfl

theorem jambonzApplyEvent_status (call : CallRecord) (p : JambonzWebhookPayload) :
    (jambonzApplyEvent call p).status =
      if truthy p.call_status then mapJambonzStatus (p.call_status.getD "") call.status
      else call.status := by
  simp only [jambonzApplyEvent, jambonzApplyResult]
  split <;> split <;> (try split) <;> rfl

theorem mapTwilioStatus_unmapped (s : String) (h : s ∉ twilioVocab) :
    mapTwilioStatus s = .INITIATED := by
  simp only [twilioVocab, List.mem_cons, List.not_mem_nil, or_false, not_or] at h
  obtain ⟨h1, h2, h3, h4, h5, h6, h7, h8, h9⟩ := h
  unfold mapTwilioStatus
  split_ifs <;> first | rfl | tauto

theorem mapJambonzStatus_unmapped (s : String) (cur : CallStatus) (h : s ∉ jambonzVocab) :
    mapJambonzStatus s cur = cur := by
  simp only [jambonzVocab, List.mem_cons, List.not_mem_nil, or_false, not_or] at h
  obtain ⟨h1, h2, h3, h4, h5, h6, h7, h8, h9, h10⟩ := h
  unfold mapJambonzStatus
  split_ifs <;> first | rfl | tauto

/-! ## Claim C6: native webhook classification mapping -/

/-- Counterexample to C6: "machine_end_other" is a `machine_*` variant (the
`machine_` prefix test is part of the statement), yet the native webhook
handler maps it to UNDECIDED at confidence 0.3, not MACHINE at 0.8. -/
theorem c6_counterexample :
    ("machine_".toList.isPrefixOf "machine_end_other".toList) = true
    ∧ (twilioNativeHandleWebhook
        ⟨some "CA100", some "in-progress", some "machine_end_other", none, none⟩).map
          (fun r => (r.result, r.confidence))
      = some (.UNDECIDED, 3/10) := by
  constructor
  · decide
  · rfl

/-- C6 (amended): the native webhook handler returns null exactly when the
payload carries no truthy classification; otherwise its verdict/confidence
follow the mapping table whose machine set is exactly the four literals
machine, machine_start, machine_end_beep, machine_end_silence ("human" →
HUMAN@0.85, "fax" → MACHINE@0.9, anything else present → UNDECIDED@0.3). -/
theorem c6_amended_native_mapping : ∀ p : TwilioWebhookPayload,
    (twilioNativeHandleWebhook p).map (fun r => (r.result, r.confidence))
      = if truthy (amdSignalValue p) then some (specAmdMapping ((amdSignalValue p).getD ""))
        else none := by
  intro p
  simp only [twilioNativeHandleWebhook, amdSignalValue, specAmdMapping]
  split_ifs <;> first | rfl | tauto

/-! ## Claim C3: status vocabulary mapping -/

/-- Counterexample to C3: on the Twilio status webhook an unmapped status
value resets the record's status to the default INITIATED instead of keeping
the current ANSWERED. -/
theorem c3_counterexample :
    (twilioApplyEvent
        ⟨.ANSWERED, some .HUMAN, some (85/100), [("twilioCallSid", .str "CA1")], none, none,
          .TWILIO_NATIVE⟩
        ⟨some "CA1", some "not-a-twilio-status", none, none, none⟩).status = .INITIATED
    ∧ (CallStatus.INITIATED ≠ CallStatus.ANSWERED) := by
  constructor
  · decide
  · decide

/-- C3 (amended): both mappers translate their provider vocabulary as the
claim lists; on the Jambonz webhook an unmapped (or absent) status keeps the
record's current status, but on the Twilio status webhook an unmapped value
falls to the switch default INITIATED. -/
theorem c3_amended_status_mapping :
    (∀ cur : CallStatus,
      mapTwilioStatus "queued" = .INITIATED ∧ mapTwilioStatus "initiated" = .INITIATED
      ∧ mapTwilioStatus "ringing" = .RINGING ∧ mapTwilioStatus "in-progress" = .ANSWERED
      ∧ mapTwilioStatus "completed" = .COMPLETED ∧ mapTwilioStatus "failed" = .FAILED
      ∧ mapTwilioStatus "busy" = .FAILED ∧ mapTwilioStatus "no-answer" = .FAILED
      ∧ mapTwilioStatus "canceled" = .CANCELLED
      ∧ mapJambonzStatus "trying" cur = .INITIATED ∧ mapJambonzStatus "proceeding" cur = .INITIATED
      ∧ mapJambonzStatus "ringing" cur = .RINGING ∧ mapJambonzStatus "early" cur = .ANSWERED
      ∧ mapJambonzStatus "in-progress" cur = .ANSWERED
      ∧ mapJambonzStatus "completed" cur = .COMPLETED ∧ mapJambonzStatus "failed" cur = .FAILED
      ∧ mapJambonzStatus "busy" cur = .FAILED ∧ mapJambonzStatus "no-answer" cur = .FAILED
      ∧ mapJambonzStatus "canceled" cur = .CANCELLED)
    ∧ (∀ (call : CallRecord) (p : JambonzWebhookPayload) (s : String),
        p.call_status = some s → s ∉ jambonzVocab →
        (jambonzApplyEvent call p).status = call.status)
    ∧ (∀ (call : CallRecord) (p : TwilioWebhookPayload) (s : String),
        p.callStatusField = some s → s ∉ twilioVocab →
        (twilioApplyEvent call p).status = .INITIATED) := by
  refine ⟨?_, ?_, ?_⟩
  · exact fun cur =>
      ⟨rfl, rfl, rfl, rfl, rfl, rfl, rfl, rfl, rfl, rfl, rfl, rfl, rfl, rfl, rfl, rfl, rfl,
        rfl, rfl⟩
  · intro call p s hs hmem
    rw [jambonzApplyEvent_status, hs]
    by_cases he : s = ""
    · subst he; rfl
    · have ht : truthy (some s) = true := by simp [truthy, he]
      rw [ht, if_pos rfl]
      exact mapJambonzStatus_unmapped s call.status hmem
  · intro call p s hs hmem
    rw [twilioApplyEvent_status, hs]
    exact mapTwilioStatus_unmapped s hmem

/-- Witness for the amended C3: an unmapped Jambonz status on a record in
status RINGING keeps it RINGING, and the same value on the Twilio route
yields INITIATED. -/
theorem c3_amended_witness :
    (jambonzApplyEvent
        ⟨.RINGING, none, none, [("jambonzCallSid", .str "JB1")], none, none, .JAMBONZ_SIP⟩
        ⟨some "JB1", false, false, false, some "strange-status", none⟩).status = .RINGING
    ∧ (twilioApplyEvent
        ⟨.RINGING, none, none, [("twilioCallSid", .str "CA7")], none, none, .TWILIO_NATIVE⟩
        ⟨some "CA7", some "strange-status", none, none, none⟩).status = .INITIATED := by
  constructor
  · exact c3_amended_status_mapping.2.1
      ⟨.RINGING, none, none, [("jambonzCallSid", .str "JB1")], none, none, .JAMBONZ_SIP⟩
      ⟨some "JB1", false, false, false, some "strange-status", none⟩
      "strange-status" rfl (by decide)
  · exact c3_amended_status_mapping.2.2
      ⟨.RINGING, none, none, [("twilioCallSid", .str "CA7")], none, none, .TWILIO_NATIVE⟩
      ⟨some "CA7", some "strange-status", none, none, none⟩
      "strange-status" rfl (by decide)

/-! ## Claim C10: duration and cost writes on the Twilio status webhook -/

/-- Counterexample to C10: a delivered zero duration (the truthy digit string
"0") is written to the record as 0, not as null as the claim states. -/
theorem c10_counterexample :
    (twilioApplyEvent
        ⟨.ANSWERED, some .HUMAN, some (85/100), [], some 42, some (7/10), .TWILIO_NATIVE⟩
        ⟨some "CA1", some "completed", none, none, some 0⟩).duration = some 0
    ∧ (some 0 ≠ (none : Option ℕ)) := by
  constructor
  · decide
  · decide

/-- C10 (amended): every processed Twilio status event overwrites duration
and cost regardless of the record's stored values and strategy: absent
`CallDuration` writes null to both; a zero duration writes duration 0 and
cost null; a positive duration n writes duration n and cost (n/60)·0.0085. -/
theorem c10_amended_duration_cost : ∀ (call : CallRecord) (p : TwilioWebhookPayload),
    (p.CallDuration = none →
      (twilioApplyEvent call p).duration = none ∧ (twilioApplyEvent call p).cost = none)
    ∧ (p.CallDuration = some 0 →
      (twilioApplyEvent call p).duration = some 0 ∧ (twilioApplyEvent call p).cost = none)
    ∧ (∀ n : ℕ, 0 < n → p.CallDuration = some n →
      (twilioApplyEvent call p).duration = some n
      ∧ (twilioApplyEvent call p).cost = some ((n : ℚ) / 60 * (85/10000))) := by
  intro call p
  refine ⟨?_, ?_, ?_⟩
  · intro h
    rw [twilioApplyEvent_duration, twilioApplyEvent_cost, h]
    exact ⟨rfl, rfl⟩
  · intro h
    rw [twilioApplyEvent_duration, twilioApplyEvent_cost, h]
    exact ⟨rfl, rfl⟩
  · intro n hn h
    rw [twilioApplyEvent_duration, twilioApplyEvent_cost, h]
    refine ⟨rfl, ?_⟩
    simp only [ne_eq]
    rw [if_pos (by omega)]

/-- Witness for the amended C10 at a 60-second completed call. -/
theorem c10_amended_witness :
    (twilioApplyEvent
        ⟨.ANSWERED, none, none, [], some 42, some (7/10), .GEMINI_FLASH⟩
        ⟨some "CA9", some "completed", none, none, some 60⟩).duration = some 60
    ∧ (twilioApplyEvent
        ⟨.ANSWERED, none, none, [], some 42, some (7/10), .GEMINI_FLASH⟩
        ⟨some "CA9", some "completed", none, none, some 60⟩).cost
      = some ((60 : ℚ) / 60 * (85/10000)) :=
  (c10_amended_duration_cost
      ⟨.ANSWERED, none, none, [], some 42, some (7/10), .GEMINI_FLASH⟩
      ⟨some "CA9", some "completed", none, none, some 60⟩).2.2
    60 (by decide) rfl

/-! ## Claim C1: null webhook results leave the stored verdict untouched -/

theorem jambonzApplyResult_frame_none (call : CallRecord) (s : Option String)
    (d : Option ℕ) :
    (jambonzApplyResult call none s d).amdResult = call.amdResult
    ∧ (jambonzApplyResult call none s d).confidence = call.confidence
    ∧ (jambonzApplyResult call none s d).metadata = call.metadata
    ∧ (jambonzApplyResult call none s d).amdStrategy = call.amdStrategy := by
  simp only [jambonzApplyResult]
  refine ⟨?_, ?_, ?_, ?_⟩ <;> (split <;> (try split) <;> rfl)

theorem twilioHandleWebhook_none_iff (p : TwilioWebhookPayload) :
    twilioNativeHandleWebhook p = none
      ↔ (truthy p.AnsweringMachineDetectionStatus || truthy p.AnsweredBy) = false := by
  simp only [twilioNativeHandleWebhook]
  cases hA : truthy p.AnsweringMachineDetectionStatus <;>
    cases hB : truthy p.AnsweredBy <;>
      simp [hA, hB] <;> split_ifs <;> simp

/-- C1: on both webhook routes, an event whose `handleWebhook` result is null
leaves the stored verdict, confidence and metadata (and the strategy)
unchanged; consequently a stored HUMAN verdict survives any sequence of
events with null `handleWebhook` results. -/
theorem c1_null_events_preserve_verdict :
    (∀ (call : CallRecord) (p : JambonzWebhookPayload), jambonzHandleWebhook p = none →
        (jambonzApplyEvent call p).amdResult = call.amdResult
        ∧ (jambonzApplyEvent call p).confidence = call.confidence
        ∧ (jambonzApplyEvent call p).metadata = call.metadata
        ∧ (jambonzApplyEvent call p).amdStrategy = call.amdStrategy)
    ∧ (∀ (call : CallRecord) (p : TwilioWebhookPayload), twilioNativeHandleWebhook p = none →
        (twilioApplyEvent call p).amdResult = call.amdResult
        ∧ (twilioApplyEvent call p).confidence = call.confidence
        ∧ (twilioApplyEvent call p).metadata = call.metadata
        ∧ (twilioApplyEvent call p).amdStrategy = call.amdStrategy)
    ∧ (∀ (call : CallRecord) (events : List JambonzWebhookPayload),
        call.amdResult = some .HUMAN → (∀ e ∈ events, jambonzHandleWebhook e = none) →
        (events.foldl jambonzApplyEvent call).amdResult = some .HUMAN)
    ∧ (∀ (call : CallRecord) (events : List TwilioWebhookPayload),
        call.amdResult = some .HUMAN → (∀ e ∈ events, twilioNativeHandleWebhook e = none) →
        (events.foldl twilioApplyEvent call).amdResult = some .HUMAN) := by
  have hjam : ∀ (call : CallRecord) (p : JambonzWebhookPayload),
      jambonzHandleWebhook p = none →
      (jambonzApplyEvent call p).amdResult = call.amdResult
      ∧ (jambonzApplyEvent call p).confidence = call.confidence
      ∧ (jambonzApplyEvent call p).metadata = call.metadata
      ∧ (jambonzApplyEvent call p).amdStrategy = call.amdStrategy := by
    intro call p h
    unfold jambonzApplyEvent
    rw [h]
    exact jambonzApplyResult_frame_none call p.call_status p.call_duration
  have htwi : ∀ (call : CallRecord) (p : TwilioWebhookPayload),
      twilioNativeHandleWebhook p = none →
      (twilioApplyEvent call p).amdResult = call.amdResult
      ∧ (twilioApplyEvent call p).confidence = call.confidence
      ∧ (twilioApplyEvent call p).metadata = call.metadata
      ∧ (twilioApplyEvent call p).amdStrategy = call.amdStrategy := by
    intro call p h
    have hsig := (twilioHandleWebhook_none_iff p).mp h
    simp [twilioApplyEvent, hsig]
  refine ⟨hjam, htwi, ?_, ?_⟩
  · intro call events
    induction events generalizing call with
    | nil => intro h _; exact h
    | cons e rest ih =>
        intro h hall
        have he := hall e (List.mem_cons_self e rest)
        have hstep := (hjam call e he).1
        exact ih (jambonzApplyEvent call e) (hstep.trans h)
          (fun x hx => hall x (List.mem_cons_of_mem e hx))
  · intro call events
    induction events generalizing call with
    | nil => intro h _; exact h
    | cons e rest ih =>
        intro h hall
        have he := hall e (List.mem_cons_self e rest)
        have hstep := (htwi call e he).1
        exact ih (twilioApplyEvent call e) (hstep.trans h)
          (fun x hx => hall x (List.mem_cons_of_mem e hx))

/-- Witness for C1: a status-only Jambonz event on a record with verdict
HUMAN leaves verdict, confidence and metadata unchanged. -/
theorem c1_witness :
    (jambonzApplyEvent
        ⟨.ANSWERED, some .HUMAN, some (9/10), [("jambonzCallSid", .str "JB1")], none, none,
          .JAMBONZ_SIP⟩
        ⟨some "JB1", false, false, false, some "completed", some 30⟩).amdResult = some .HUMAN
    ∧ (jambonzApplyEvent
        ⟨.ANSWERED, some .HUMAN, some (9/10), [("jambonzCallSid", .str "JB1")], none, none,
          .JAMBONZ_SIP⟩
        ⟨some "JB1", false, false, false, some "completed", some 30⟩).confidence = some (9/10)
    ∧ (jambonzApplyEvent
        ⟨.ANSWERED, some .HUMAN, some (9/10), [("jambonzCallSid", .str "JB1")], none, none,
          .JAMBONZ_SIP⟩
        ⟨some "JB1", false, false, false, some "completed", some 30⟩).metadata
      = [("jambonzCallSid", .str "JB1")] := by
  have h := c1_null_events_preserve_verdict.1
    ⟨.ANSWERED, some .HUMAN, some (9/10), [("jambonzCallSid", .str "JB1")], none, none,
      .JAMBONZ_SIP⟩
    ⟨some "JB1", false, false, false, some "completed", some 30⟩ rfl
  exact ⟨h.1, h.2.1, h.2.2.1⟩

/-! ## Claim C7: metadata merge -/

theorem jambonzApplyResult_metadata_some (call : CallRecord) (r : AmdDetectionResult)
    (s : Option String) (d : Option ℕ) :
    (jambonzApplyResult call (some r) s d).metadata = call.metadata.spread r.metadata := by
  simp only [jambonzApplyResult]
  split <;> (try split) <;> rfl

theorem twilioHandleWebhook_metadata_keys (p : TwilioWebhookPayload)
    (r : AmdDetectionResult) (h : twilioNativeHandleWebhook p = some r) (k : String)
    (h1 : k ≠ "twilioAmd") (h2 : k ≠ "source") : r.metadata.get k = none := by
  simp only [twilioNativeHandleWebhook] at h
  split_ifs at h <;>
    first
    | exact Option.noConfusion h
    | (injection h with h'
       subst h'
       rw [Metadata.get_cons_ne _ _ _ _ (Ne.symm h1), Metadata.get_cons_ne _ _ _ _ (Ne.symm h2)]
       rfl)

/-- C7: the reconciliation merge is a shallow recency-biased union.  On the
Jambonz route, for two sequential events carrying results `r₁` then `r₂`:
any key of `r₂` ends with `r₂`'s value (later wins), any key of `r₁` not
overwritten by `r₂` survives with `r₁`'s value (disjoint union), and any
stored key touched by neither survives (no wholesale replacement).  On the
Twilio route a stored key outside the event's write set always survives. -/
theorem c7_metadata_merge :
    (∀ (call : CallRecord) (r₁ r₂ : AmdDetectionResult) (s₁ s₂ : Option String)
        (d₁ d₂ : Option ℕ) (k : String) (v : MetaVal),
        r₂.metadata.get k = some v →
        (jambonzApplyResult (jambonzApplyResult call (some r₁) s₁ d₁) (some r₂) s₂ d₂).metadata.get
            k = some v)
    ∧ (∀ (call : CallRecord) (r₁ r₂ : AmdDetectionResult) (s₁ s₂ : Option String)
        (d₁ d₂ : Option ℕ) (k : String) (v : MetaVal),
        r₂.metadata.get k = none → r₁.metadata.get k = some v →
        (jambonzApplyResult (jambonzApplyResult call (some r₁) s₁ d₁) (some r₂) s₂ d₂).metadata.get
            k = some v)
    ∧ (∀ (call : CallRecord) (r₁ r₂ : AmdDetectionResult) (s₁ s₂ : Option String)
        (d₁ d₂ : Option ℕ) (k : String) (v : MetaVal),
        r₂.metadata.get k = none → r₁.metadata.get k = none → call.metadata.get k = some v →
        (jambonzApplyResult (jambonzApplyResult call (some r₁) s₁ d₁) (some r₂) s₂ d₂).metadata.get
            k = some v)
    ∧ (∀ (call : CallRecord) (p : TwilioWebhookPayload) (k : String) (v : MetaVal),
        call.metadata.get k = some v →
        k ∉ ["twilioAmd", "source", "originalAnsweredBy", "originalStrategy", "actualProvider",
          "fallbackUsed"] →
        (twilioApplyEvent call p).metadata.get k = some v) := by
  refine ⟨?_, ?_, ?_, ?_⟩
  · intro call r₁ r₂ s₁ s₂ d₁ d₂ k v h2
    rw [jambonzApplyResult_metadata_some, Metadata.get_spread, h2]
    rfl
  · intro call r₁ r₂ s₁ s₂ d₁ d₂ k v h2 h1
    rw [jambonzApplyResult_metadata_some, Metadata.get_spread, h2,
      jambonzApplyResult_metadata_some, Metadata.get_spread, h1]
    rfl
  · intro call r₁ r₂ s₁ s₂ d₁ d₂ k v h2 h1 hc
    rw [jambonzApplyResult_metadata_some, Metadata.get_spread, h2,
      jambonzApplyResult_metadata_some, Metadata.get_spread, h1, hc]
    rfl
  · intro call p k v hc hmem
    simp only [List.mem_cons, List.not_mem_nil, or_false, not_or] at hmem
    obtain ⟨k1, k2, k3, k4, k5, k6⟩ := hmem
    simp only [twilioApplyEvent]
    split
    · split
      next r hr =>
        rw [Metadata.get_spread]
        rw [show Metadata.get
            [("originalAnsweredBy", p.AnsweredBy.elim .undef .str),
             ("originalStrategy", MetaVal.str call.amdStrategy.name),
             ("actualProvider", MetaVal.str "twilio"),
             ("fallbackUsed", MetaVal.boolVal (call.amdStrategy ≠ .TWILIO_NATIVE))] k = none from by
          rw [Metadata.get_cons_ne _ _ _ _ (Ne.symm k3), Metadata.get_cons_ne _ _ _ _ (Ne.symm k4),
            Metadata.get_cons_ne _ _ _ _ (Ne.symm k5), Metadata.get_cons_ne _ _ _ _ (Ne.symm k6)]
          rfl]
        rw [Metadata.get_spread, twilioHandleWebhook_metadata_keys _ r hr k k1 k2, hc]
        rfl
      next => exact hc
    · exact hc

/-- Witness for C7: two concrete events with an overlapping key "x" and a
disjoint key pair; the later value wins, the disjoint keys and the stored
key all survive. -/
theorem c7_witness :
    (jambonzApplyResult
        (jambonzApplyResult
          ⟨.ANSWERED, none, none, [("stored", .str "s0")], none, none, .JAMBONZ_SIP⟩
          (some ⟨.HUMAN, 9/10, [("x", .str "first"), ("a", .str "va")]⟩) (some "ringing") none)
        (some ⟨.HUMAN, 9/10, [("x", .str "second"), ("b", .str "vb")]⟩) (some "completed")
        none).metadata.get "x" = some (.str "second")
    ∧ (jambonzApplyResult
        (jambonzApplyResult
          ⟨.ANSWERED, none, none, [("stored", .str "s0")], none, none, .JAMBONZ_SIP⟩
          (some ⟨.HUMAN, 9/10, [("x", .str "first"), ("a", .str "va")]⟩) (some "ringing") none)
        (some ⟨.HUMAN, 9/10, [("x", .str "second"), ("b", .str "vb")]⟩) (some "completed")
        none).metadata.get "a" = some (.str "va")
    ∧ (jambonzApplyResult
        (jambonzApplyResult
          ⟨.ANSWERED, none, none, [("stored", .str "s0")], none, none, .JAMBONZ_SIP⟩
          (some ⟨.HUMAN, 9/10, [("x", .str "first"), ("a", .str "va")]⟩) (some "ringing") none)
        (some ⟨.HUMAN, 9/10, [("x", .str "second"), ("b", .str "vb")]⟩) (some "completed")
        none).metadata.get "stored" = some (.str "s0") := by
  refine ⟨?_, ?_, ?_⟩
  · exact c7_metadata_merge.1
      ⟨.ANSWERED, none, none, [("stored", .str "s0")], none, none, .JAMBONZ_SIP⟩
      ⟨.HUMAN, 9/10, [("x", .str "first"), ("a", .str "va")]⟩
      ⟨.HUMAN, 9/10, [("x", .str "second"), ("b", .str "vb")]⟩
      (some "ringing") (some "completed") none none "x" (.str "second") rfl
  · exact c7_metadata_merge.2.1
      ⟨.ANSWERED, none, none, [("stored", .str "s0")], none, none, .JAMBONZ_SIP⟩
      ⟨.HUMAN, 9/10, [("x", .str "first"), ("a", .str "va")]⟩
      ⟨.HUMAN, 9/10, [("x", .str "second"), ("b", .str "vb")]⟩
      (some "ringing") (some "completed") none none "a" (.str "va") rfl rfl
  · exact c7_metadata_merge.2.2.1
      ⟨.ANSWERED, none, none, [("stored", .str "s0")], none, none, .JAMBONZ_SIP⟩
      ⟨.HUMAN, 9/10, [("x", .str "first"), ("a", .str "va")]⟩
      ⟨.HUMAN, 9/10, [("x", .str "second"), ("b", .str "vb")]⟩
      (some "ringing") (some "completed") none none "stored" (.str "s0") rfl rfl rfl

/-! ## Claim C2: fallback annotations -/

theorem twilioProcessCall_confidence (o : TwilioCallOutcome) :
    (twilioProcessCall o).confidence = 0 := by
  cases o <;> rfl

theorem twilioProcessCall_no_fallbackUsed (o : TwilioCallOutcome) :
    (twilioProcessCall o).metadata.get "fallbackUsed" = none := by
  cases o <;> rfl

theorem jambonzFallback_spec (tw : TwilioCallOutcome) (reason : String) :
    (jambonzFallback tw reason).result = (twilioProcessCall tw).result
    ∧ (jambonzFallback tw reason).confidence = (twilioProcessCall tw).confidence
    ∧ (jambonzFallback tw reason).metadata.get "fallbackUsed" = some (.boolVal true)
    ∧ (jambonzFallback tw reason).metadata.get "fallbackReason" = some (.str reason) :=
  ⟨rfl, rfl, rfl, rfl⟩

/-- Counterexample to C2: with the Python ML service unhealthy, the
Streaming-ML strategy's fallback result carries a fallbackReason but no
`fallbackUsed` key at all. -/
theorem c2_counterexample :
    (huggingFaceProcessCall ⟨false, "http://localhost:8000", .ok "CAml", .ok "CAfb" "queued"⟩
        "+15551234567" "call-1").metadata.get "fallbackReason"
      = some (.str "Python service unavailable")
    ∧ (huggingFaceProcessCall ⟨false, "http://localhost:8000", .ok "CAml", .ok "CAfb" "queued"⟩
        "+15551234567" "call-1").metadata.get "fallbackUsed" = none := by
  exact ⟨rfl, rfl⟩

/-- C2 (amended): with the primary collaborator unconfigured or unhealthy,
each of the three strategies returns the native strategy's verdict and
confidence together with a non-empty fallbackReason; the SIP-Enhanced
strategy additionally sets `fallbackUsed=true`, while the Streaming-ML and
LLM strategies mark the fallback through strategy keys and carry no
`fallbackUsed` key. -/
theorem c2_amended_fallback :
    (∀ (env : JambonzEnv) (phone callId : String),
        env.configured = false ∨ env.healthy = false →
        (jambonzProcessCall env phone callId).result = (twilioProcessCall env.twilioOutcome).result
        ∧ (jambonzProcessCall env phone callId).confidence
            = (twilioProcessCall env.twilioOutcome).confidence
        ∧ (jambonzProcessCall env phone callId).metadata.get "fallbackUsed"
            = some (.boolVal true)
        ∧ ∃ reason, (jambonzProcessCall env phone callId).metadata.get "fallbackReason"
            = some (.str reason) ∧ reason ≠ "")
    ∧ (∀ (env : HuggingFaceEnv) (phone callId : String),
        env.pythonHealthy = false →
        (huggingFaceProcessCall env phone callId).result
            = (twilioProcessCall env.twilioOutcome).result
        ∧ (huggingFaceProcessCall env phone callId).confidence
            = (twilioProcessCall env.twilioOutcome).confidence
        ∧ (huggingFaceProcessCall env phone callId).metadata.get "fallbackReason"
            = some (.str "Python service unavailable")
        ∧ (huggingFaceProcessCall env phone callId).metadata.get "fallbackUsed" = none)
    ∧ (∀ (env : GeminiEnv) (phone callId : String),
        env.apiKeyConfigured = false ∨ env.geminiAvailable = false →
        (geminiProcessCall env phone callId).result = (twilioProcessCall env.twilioOutcome).result
        ∧ (geminiProcessCall env phone callId).confidence
            = (twilioProcessCall env.twilioOutcome).confidence
        ∧ (∃ reason, (geminiProcessCall env phone callId).metadata.get "fallbackReason"
            = some (.str reason) ∧ reason ≠ "")
        ∧ (geminiProcessCall env phone callId).metadata.get "fallbackUsed" = none) := by
  refine ⟨?_, ?_, ?_⟩
  · intro env phone callId h
    cases hcfg : env.configured with
    | false =>
        have he : jambonzProcessCall env phone callId
            = jambonzFallback env.twilioOutcome "Jambonz not configured" := by
          unfold jambonzProcessCall; rw [hcfg]; rfl
        rw [he]
        obtain ⟨h1, h2, h3, h4⟩ := jambonzFallback_spec env.twilioOutcome "Jambonz not configured"
        exact ⟨h1, h2, h3, "Jambonz not configured", h4, by decide⟩
    | true =>
        have hh : env.healthy = false := by
          rcases h with h | h
          · rw [hcfg] at h; exact absurd h (by decide)
          · exact h
        have he : jambonzProcessCall env phone callId
            = jambonzFallback env.twilioOutcome "Jambonz service unavailable" := by
          unfold jambonzProcessCall; rw [hcfg, hh]; rfl
        rw [he]
        obtain ⟨h1, h2, h3, h4⟩ :=
          jambonzFallback_spec env.twilioOutcome "Jambonz service unavailable"
        exact ⟨h1, h2, h3, "Jambonz service unavailable", h4, by decide⟩
  · intro env phone callId h
    have he : huggingFaceProcessCall env phone callId
        = { twilioProcessCall env.twilioOutcome with
            metadata := (twilioProcessCall env.twilioOutcome).metadata.spread
              [("strategy", .str "huggingface-fallback"),
               ("fallbackReason", .str "Python service unavailable"),
               ("originalStrategy", .str "huggingface")] } := by
      unfold huggingFaceProcessCall; rw [h]; rfl
    rw [he]
    refine ⟨rfl, rfl, rfl, ?_⟩
    show (((twilioProcessCall env.twilioOutcome).metadata.spread _).get "fallbackUsed") = none
    rw [Metadata.get_spread]
    exact twilioProcessCall_no_fallbackUsed env.twilioOutcome
  · intro env phone callId h
    cases hcfg : env.apiKeyConfigured with
    | false =>
        have he : geminiProcessCall env phone callId
            = { twilioProcessCall env.twilioOutcome with
                metadata := (twilioProcessCall env.twilioOutcome).metadata.spread
                  [("strategy", .str "gemini-fallback"),
                   ("fallbackReason", .str "Gemini API key not configured"),
                   ("originalStrategy", .str "gemini"),
                   ("note", .str "Get free API key from ai.google.dev")] } := by
          unfold geminiProcessCall; rw [hcfg]; rfl
        rw [he]
        refine ⟨rfl, rfl, ⟨"Gemini API key not configured", rfl, by decide⟩, ?_⟩
        show (((twilioProcessCall env.twilioOutcome).metadata.spread _).get "fallbackUsed") = none
        rw [Metadata.get_spread]
        exact twilioProcessCall_no_fallbackUsed env.twilioOutcome
    | true =>
        have hh : env.geminiAvailable = false := by
          rcases h with h | h
          · rw [hcfg] at h; exact absurd h (by decide)
          · exact h
        have he : geminiProcessCall env phone callId
            = { twilioProcessCall env.twilioOutcome with
                metadata := (twilioProcessCall env.twilioOutcome).metadata.spread
                  [("strategy", .str "gemini-api-fallback"),
                   ("fallbackReason", .str "Gemini API unavailable"),
                   ("originalStrategy", .str "gemini")] } := by
          unfold geminiProcessCall; rw [hcfg, hh]; rfl
        rw [he]
        refine ⟨rfl, rfl, ⟨"Gemini API unavailable", rfl, by decide⟩, ?_⟩
        show (((twilioProcessCall env.twilioOutcome).metadata.spread _).get "fallbackUsed") = none
        rw [Metadata.get_spread]
        exact twilioProcessCall_no_fallbackUsed env.twilioOutcome

/-- Witness for the amended C2 at a concrete unconfigured SIP environment. -/
theorem c2_amended_witness :
    (jambonzProcessCall ⟨false, true, fun _ => .exn, .ok "CAfb" "queued"⟩ "+15550001111"
        "call-7").result = (twilioProcessCall (.ok "CAfb" "queued")).result
    ∧ (jambonzProcessCall ⟨false, true, fun _ => .exn, .ok "CAfb" "queued"⟩ "+15550001111"
        "call-7").metadata.get "fallbackUsed" = some (.boolVal true) := by
  have h := c2_amended_fallback.1 ⟨false, true, fun _ => .exn, .ok "CAfb" "queued"⟩
    "+15550001111" "call-7" (Or.inl rfl)
  exact ⟨h.1, h.2.2.1⟩

/-! ## Claim C8: LLM transcript classification fallback parsing -/

theorem gpat_uninit (env : GeminiTextEnv) (t : String) (aq nl : Option String)
    (h : env.initialized = false) :
    geminiProcessAudioText env t aq nl
      = ⟨.ERROR, 0, [("error", .str "Gemini API not initialized")]⟩ := by
  simp only [geminiProcessAudioText]
  rw [h]
  rfl

theorem gpat_generate_error (env : GeminiTextEnv) (t : String) (aq nl : Option String)
    (m : String) (h1 : env.initialized = true)
    (h2 : env.generate (nl == some "high" || aq == some "poor") (truncateTranscript t)
      = .error m) :
    geminiProcessAudioText env t aq nl = ⟨.ERROR, 0, [("error", .str m)]⟩ := by
  simp only [geminiProcessAudioText]
  rw [h1, h2]
  rfl

theorem gpat_ok (env : GeminiTextEnv) (t : String) (aq nl : Option String) (text : String)
    (h1 : env.initialized = true)
    (h2 : env.generate (nl == some "high" || aq == some "poor") (truncateTranscript t)
      = .ok text) :
    geminiProcessAudioText env t aq nl
      = geminiHandleResponse env text (truncateTranscript t) aq nl
          (nl == some "high" || aq == some "poor") (decide (t.length > 500)) := by
  simp only [geminiProcessAudioText]
  rw [h1, h2]
  rfl

theorem ghr_parsed (env : GeminiTextEnv) (text opt : String) (aq nl : Option String)
    (noisy tokOpt : Bool) (parsed : ParsedGemini) (h3 : env.parseJSON text = some parsed) :
    (geminiHandleResponse env text opt aq nl noisy tokOpt).confidence = parsed.confidence
    ∧ (geminiHandleResponse env text opt aq nl noisy tokOpt).result
        = (if parsed.classification = some "human" then .HUMAN
           else if parsed.classification = some "voicemail" then .VOICEMAIL
           else .MACHINE) := by
  refine ⟨?_, ?_⟩ <;> (simp only [geminiHandleResponse]; rw [h3])

theorem ghr_keyword (env : GeminiTextEnv) (text opt : String) (aq nl : Option String)
    (noisy tokOpt : Bool) (r : AmdDetectionResult) (h3 : env.parseJSON text = none)
    (h4 : parseFallbackResponse text = some r) :
    geminiHandleResponse env text opt aq nl noisy tokOpt = r := by
  simp only [geminiHandleResponse]
  rw [h3, h4]

theorem ghr_parse_error (env : GeminiTextEnv) (text opt : String) (aq nl : Option String)
    (noisy tokOpt : Bool) (h3 : env.parseJSON text = none)
    (h4 : parseFallbackResponse text = none) :
    geminiHandleResponse env text opt aq nl noisy tokOpt
      = ⟨.ERROR, 0,
          [("error", .str "Failed to parse Gemini response"),
           ("rawResponse", .str text),
           ("fallbackAttempted", .boolVal true)]⟩ := by
  simp only [geminiHandleResponse]
  rw [h3, h4]

theorem gpat_parsed (env : GeminiTextEnv) (t : String) (aq nl : Option String)
    (text : String) (parsed : ParsedGemini) (h1 : env.initialized = true)
    (h2 : env.generate (nl == some "high" || aq == some "poor") (truncateTranscript t)
      = .ok text)
    (h3 : env.parseJSON text = some parsed) :
    (geminiProcessAudioText env t aq nl).confidence = parsed.confidence
    ∧ (geminiProcessAudioText env t aq nl).result
        = (if parsed.classification = some "human" then .HUMAN
           else if parsed.classification = some "voicemail" then .VOICEMAIL
           else .MACHINE) := by
  rw [gpat_ok env t aq nl text h1 h2]
  exact ghr_parsed env text _ aq nl _ _ parsed h3

theorem gpat_keyword (env : GeminiTextEnv) (t : String) (aq nl : Option String)
    (text : String) (r : AmdDetectionResult) (h1 : env.initialized = true)
    (h2 : env.generate (nl == some "high" || aq == some "poor") (truncateTranscript t)
      = .ok text)
    (h3 : env.parseJSON text = none) (h4 : parseFallbackResponse text = some r) :
    geminiProcessAudioText env t aq nl = r := by
  rw [gpat_ok env t aq nl text h1 h2]
  exact ghr_keyword env text _ aq nl _ _ r h3 h4

theorem gpat_parse_error (env : GeminiTextEnv) (t : String) (aq nl : Option String)
    (text : String) (h1 : env.initialized = true)
    (h2 : env.generate (nl == some "high" || aq == some "poor") (truncateTranscript t)
      = .ok text)
    (h3 : env.parseJSON text = none) (h4 : parseFallbackResponse text = none) :
    geminiProcessAudioText env t aq nl
      = ⟨.ERROR, 0,
          [("error", .str "Failed to parse Gemini response"),
           ("rawResponse", .str text),
           ("fallbackAttempted", .boolVal true)]⟩ := by
  rw [gpat_ok env t aq nl text h1 h2]
  exact ghr_parse_error env text _ aq nl _ _ h3 h4

/-- C8: whenever the model response text is not parseable as structured JSON,
the LLM strategy's transcript classification degrades to the keyword scan
("human" → HUMAN@0.7, "machine"/"voicemail" → MACHINE@0.7) and otherwise
returns ERROR with a human-readable error and the raw response preserved. -/
theorem c8_llm_keyword_fallback : ∀ (env : GeminiTextEnv) (transcript : String)
    (audioQuality noiseLevel : Option String) (text : String),
    env.initialized = true →
    env.generate (noiseLevel == some "high" || audioQuality == some "poor")
        (truncateTranscript transcript) = .ok text →
    env.parseJSON text = none →
    (if strIncludes (strToLower text) "human" then
        (geminiProcessAudioText env transcript audioQuality noiseLevel).result = .HUMAN
        ∧ (geminiProcessAudioText env transcript audioQuality noiseLevel).confidence = 7/10
      else if strIncludes (strToLower text) "machine" || strIncludes (strToLower text) "voicemail"
        then
        (geminiProcessAudioText env transcript audioQuality noiseLevel).result = .MACHINE
        ∧ (geminiProcessAudioText env transcript audioQuality noiseLevel).confidence = 7/10
      else
        (geminiProcessAudioText env transcript audioQuality noiseLevel).result = .ERROR
        ∧ (geminiProcessAudioText env transcript audioQuality noiseLevel).metadata.get "error"
            = some (.str "Failed to parse Gemini response")
        ∧ (geminiProcessAudioText env transcript audioQuality noiseLevel).metadata.get
            "rawResponse" = some (.str text)) := by
  intro env transcript audioQuality noiseLevel text hinit hgen hparse
  split_ifs with h1 h2
  · have h4 : parseFallbackResponse text
        = some ⟨.HUMAN, 7/10, [("fallbackParsing", .boolVal true), ("rawResponse", .str text)]⟩ := by
      simp only [parseFallbackResponse]
      rw [if_pos h1]
    rw [gpat_keyword env transcript audioQuality noiseLevel text _ hinit hgen hparse h4]
    exact ⟨rfl, rfl⟩
  · have h4 : parseFallbackResponse text
        = some ⟨.MACHINE, 7/10, [("fallbackParsing", .boolVal true), ("rawResponse", .str text)]⟩ := by
      simp only [parseFallbackResponse]
      rw [if_neg h1, if_pos h2]
    rw [gpat_keyword env transcript audioQuality noiseLevel text _ hinit hgen hparse h4]
    exact ⟨rfl, rfl⟩
  · have h4 : parseFallbackResponse text = none := by
      simp only [parseFallbackResponse]
      rw [if_neg h1, if_neg h2]
    rw [gpat_parse_error env transcript audioQuality noiseLevel text hinit hgen hparse h4]
    exact ⟨rfl, rfl, rfl⟩

/-- Witness for C8 at a response text containing none of the keywords. -/
theorem c8_witness :
    (geminiProcessAudioText ⟨true, fun _ _ => .ok "zzz qqq", fun _ => none⟩ "hello" none
        none).result = .ERROR
    ∧ (geminiProcessAudioText ⟨true, fun _ _ => .ok "zzz qqq", fun _ => none⟩ "hello" none
        none).metadata.get "error" = some (.str "Failed to parse Gemini response")
    ∧ (geminiProcessAudioText ⟨true, fun _ _ => .ok "zzz qqq", fun _ => none⟩ "hello" none
        none).metadata.get "rawResponse" = some (.str "zzz qqq") := by
  have h := c8_llm_keyword_fallback ⟨true, fun _ _ => .ok "zzz qqq", fun _ => none⟩ "hello"
    none none "zzz qqq" rfl rfl rfl
  rw [if_neg (by decide), if_neg (by decide)] at h
  exact h

/-! ## Claim C9: confidence values -/

/-- Counterexample to C9: the streaming-ML audio-buffer inference passes the
collaborator's reported confidence through unclamped, so a response with
confidence 2 produces a Detection Result whose confidence lies outside
[0,1]. -/
theorem c9_counterexample :
    (huggingFaceProcessAudioBuffer (.ok "human" 2)).confidence = 2
    ∧ ¬((huggingFaceProcessAudioBuffer (.ok "human" 2)).confidence ≤ 1) := by
  refine ⟨rfl, ?_⟩
  rw [show (huggingFaceProcessAudioBuffer (.ok "human" 2)).confidence = 2 from rfl]
  norm_num

theorem jambonzTryFormats_confidence (tw : TwilioCallOutcome) (att : ℕ → JambonzAttempt) :
    ∀ (fmts : List String) (i : ℕ), (jambonzTryFormats tw att fmts i).confidence = 0 := by
  intro fmts
  induction fmts with
  | nil => intro i; exact twilioProcessCall_confidence tw
  | cons f rest ih =>
      intro i
      simp only [jambonzTryFormats]
      cases att i with
      | ok sid => rfl
      | rejected e =>
          cases rest.isEmpty
          · exact ih (i + 1)
          · exact twilioProcessCall_confidence tw
      | exn => exact ih (i + 1)

theorem parseFallbackResponse_spec (text : String) (r : AmdDetectionResult)
    (h : parseFallbackResponse text = some r) :
    r.confidence = 7/10 ∧ (r.result = .HUMAN ∨ r.result = .MACHINE) := by
  simp only [parseFallbackResponse] at h
  split_ifs at h <;>
    first
    | exact Option.noConfusion h
    | (injection h with h'; subst h'; exact ⟨rfl, Or.inl rfl⟩)
    | (injection h with h'; subst h'; exact ⟨rfl, Or.inr rfl⟩)

/-- C9 (amended): every confidence the strategy code itself writes lies in
[0,1] (placement results carry 0, webhook mappings carry 0.3-0.9, the
keyword fallback carries 0.7, ERROR results carry 0); the two operations
that pass a collaborator-reported confidence through (the ML audio-buffer
inference and the parsed LLM classification) stay in [0,1] exactly when the
collaborator's value does. -/
theorem c9_amended_confidence_range :
    (∀ o : TwilioCallOutcome, (twilioProcessCall o).confidence = 0)
    ∧ (∀ (p : TwilioWebhookPayload) (r : AmdDetectionResult),
        twilioNativeHandleWebhook p = some r → 0 ≤ r.confidence ∧ r.confidence ≤ 1)
    ∧ (∀ (p : JambonzWebhookPayload) (r : AmdDetectionResult),
        jambonzHandleWebhook p = some r → 0 ≤ r.confidence ∧ r.confidence ≤ 1)
    ∧ (∀ (env : JambonzEnv) (phone callId : String),
        (jambonzProcessCall env phone callId).confidence = 0)
    ∧ (∀ (env : HuggingFaceEnv) (phone callId : String),
        (huggingFaceProcessCall env phone callId).confidence = 0)
    ∧ (∀ (env : GeminiEnv) (phone callId : String),
        (geminiProcessCall env phone callId).confidence = 0)
    ∧ (∀ (label : String) (conf : ℚ), 0 ≤ conf → conf ≤ 1 →
        0 ≤ (huggingFaceProcessAudioBuffer (.ok label conf)).confidence
        ∧ (huggingFaceProcessAudioBuffer (.ok label conf)).confidence ≤ 1)
    ∧ (∀ o : PredictOutcome, (huggingFaceProcessAudioBuffer o).result = .ERROR →
        (huggingFaceProcessAudioBuffer o).confidence = 0)
    ∧ (∀ (env : GeminiTextEnv) (t : String) (aq nl : Option String),
        (∀ (text : String) (parsed : ParsedGemini), env.parseJSON text = some parsed →
          0 ≤ parsed.confidence ∧ parsed.confidence ≤ 1) →
        0 ≤ (geminiProcessAudioText env t aq nl).confidence
        ∧ (geminiProcessAudioText env t aq nl).confidence ≤ 1)
    ∧ (∀ (env : GeminiTextEnv) (t : String) (aq nl : Option String),
        (geminiProcessAudioText env t aq nl).result = .ERROR →
        (geminiProcessAudioText env t aq nl).confidence = 0) := by
  refine ⟨twilioProcessCall_confidence, ?_, ?_, ?_, ?_, ?_, ?_, ?_, ?_, ?_⟩
  · intro p r h
    simp only [twilioNativeHandleWebhook] at h
    split_ifs at h <;>
      first
      | exact Option.noConfusion h
      | (injection h with h'; subst h'; constructor <;> norm_num)
  · intro p r h
    simp only [jambonzHandleWebhook] at h
    split_ifs at h <;>
      first
      | exact Option.noConfusion h
      | (injection h with h'; subst h'; constructor <;> norm_num)
  · intro env phone callId
    unfold jambonzProcessCall
    split_ifs
    · exact twilioProcessCall_confidence env.twilioOutcome
    · exact twilioProcessCall_confidence env.twilioOutcome
    · exact jambonzTryFormats_confidence env.twilioOutcome env.attempt _ 0
  · intro env phone callId
    unfold huggingFaceProcessCall
    split_ifs
    · exact twilioProcessCall_confidence env.twilioOutcome
    · cases env.placement with
      | ok sid => rfl
      | thrown m => exact twilioProcessCall_confidence env.twilioOutcome
  · intro env phone callId
    unfold geminiProcessCall
    split_ifs
    · exact twilioProcessCall_confidence env.twilioOutcome
    · exact twilioProcessCall_confidence env.twilioOutcome
    · cases env.placement with
      | ok sid => rfl
      | thrown m => exact twilioProcessCall_confidence env.twilioOutcome
  · intro label conf h0 h1
    exact ⟨h0, h1⟩
  · intro o h
    cases o with
    | ok label conf =>
        exfalso
        simp only [huggingFaceProcessAudioBuffer] at h
        split_ifs at h <;> exact absurd h (by decide)
    | httpError st => rfl
    | exn m => rfl
  · intro env t aq nl hcol
    cases hinit : env.initialized with
    | false =>
        rw [gpat_uninit env t aq nl hinit]
        norm_num
    | true =>
        cases hg : env.generate (nl == some "high" || aq == some "poor") (truncateTranscript t)
          with
        | error m =>
            rw [gpat_generate_error env t aq nl m hinit hg]
            norm_num
        | ok text =>
            cases hp : env.parseJSON text with
            | some parsed =>
                rw [(gpat_parsed env t aq nl text parsed hinit hg hp).1]
                exact hcol text parsed hp
            | none =>
                cases hf : parseFallbackResponse text with
                | some r =>
                    rw [gpat_keyword env t aq nl text r hinit hg hp hf,
                      (parseFallbackResponse_spec text r hf).1]
                    norm_num
                | none =>
                    rw [gpat_parse_error env t aq nl text hinit hg hp hf]
                    norm_num
  · intro env t aq nl h
    cases hinit : env.initialized with
    | false => rw [gpat_uninit env t aq nl hinit]
    | true =>
        cases hg : env.generate (nl == some "high" || aq == some "poor") (truncateTranscript t)
          with
        | error m => rw [gpat_generate_error env t aq nl m hinit hg]
        | ok text =>
            cases hp : env.parseJSON text with
            | some parsed =>
                exfalso
                have hres := (gpat_parsed env t aq nl text parsed hinit hg hp).2
                rw [hres] at h
                split_ifs at h <;> exact absurd h (by decide)
            | none =>
                cases hf : parseFallbackResponse text with
                | some r =>
                    exfalso
                    rw [gpat_keyword env t aq nl text r hinit hg hp hf] at h
                    rcases (parseFallbackResponse_spec text r hf).2 with hr | hr <;>
                      rw [hr] at h <;> exact absurd h (by decide)
                | none => rw [gpat_parse_error env t aq nl text hinit hg hp hf]

/-- Witness for the amended C9: the ML inference at an in-range collaborator
confidence and a parsed LLM classification under an in-range collaborator. -/
theorem c9_amended_witness :
    (0 ≤ (huggingFaceProcessAudioBuffer (.ok "human" 1)).confidence
      ∧ (huggingFaceProcessAudioBuffer (.ok "human" 1)).confidence ≤ 1)
    ∧ (0 ≤ (geminiProcessAudioText ⟨true, fun _ _ => .ok "resp", fun _ => none⟩ "hi" none
          none).confidence
      ∧ (geminiProcessAudioText ⟨true, fun _ _ => .ok "resp", fun _ => none⟩ "hi" none
          none).confidence ≤ 1) := by
  constructor
  · exact c9_amended_confidence_range.2.2.2.2.2.2.1 "human" 1 zero_le_one (le_refl 1)
  · exact c9_amended_confidence_range.2.2.2.2.2.2.2.2.1
      ⟨true, fun _ _ => .ok "resp", fun _ => none⟩ "hi" none none
      (fun text parsed hp => Option.noConfusion hp)

end AmdCore
